import Mathlib

/-!
Lean model of the rtl_map / rtl_fftx acquisition-to-spectrum pipeline
(src/rtl_map.c and src/rtl_fftx.c). Every definition below is a shallow
embedding of a specific piece of the C source; the source location is
given in the doc comment of each definition. Machine doubles are
modelled by exact reals, except that the value emitted by the dB
computation is modelled by EmitVal so that the IEEE negative infinity
produced by log10(0) is tracked explicitly, and the C conversion of a
nonnegative double to int is modelled by the integer floor.
-/

set_option maxHeartbeats 1000000

/-- FFT size: NUM_READ = 512 (rtl_map.c:32) and n_read = NUM_READ (rtl_map.c:49). -/
def n_read : ℕ := 512

/-- Byte count requested from the device per asynchronous read:
rtlsdr_read_async(dev, async_read_callback, NULL, 0, n_read * n_read)
(rtl_map.c:460 and rtl_map.c:583; rtl_fftx.c:313 uses pow(n_read, 2)). -/
def read_async_buf_len : ℕ := n_read * n_read

/-- Contents of the fftw input array after the conversion loop of create_fft
(rtl_map.c:381-385; rtl_fftx.c:205-210):
  n = 0;
  for (i = 0; i < sample_c; i += 2) -- in[i] = (buf[n]-off) + (buf[n+1]-off)*I; n++;
The loop body runs once for each even i below sample_c, writing slot
i = 2*n from bytes n and n+1 of the batch; a slot the loop never writes
keeps the uninitialized contents of fftw_malloc, modelled as none here.
The offset off is 127.34 in rtl_map.c:383 and 127 in rtl_fftx.c:208. -/
def fft_in {α : Type} [Sub α] (off : α) (buf : ℕ → α) (sample_c : ℕ) : ℕ → Option (α × α) :=
  (List.range ((sample_c + 1) / 2)).foldl
    (fun mem n => fun j => if j = 2 * n then some (buf n - off, buf (n + 1) - off) else mem j)
    (fun _ => none)

/-- Modelled from the spec: the de-interleave step exactly as the spec words
it, ComplexSample[i] = (batch[2i] - offset) + j (batch[2i+1] - offset) for
every i in [0,N). It exists only to be compared with fft_in, the version
translated from the source. -/
def spec_fft_in {α : Type} [Sub α] (off : α) (buf : ℕ → α) (sample_c i : ℕ) : Option (α × α) :=
  if i < sample_c then some (buf (2 * i) - off, buf (2 * i + 1) - off) else none

/-- The N = 4 example batch [127,127,137,117,107,147,127,127] used by the
spec; bytes beyond the batch are 0. -/
def exBatch : ℕ → ℤ := fun i => ([127, 127, 137, 117, 107, 147, 127, 127] : List ℤ).getD i 0

/-- out_r = creal(out[i]) * creal(out[i]) (rtl_map.c:404; rtl_fftx.c:222 via
pow): out_r is declared int (rtl_map.c:52), so the double product is
converted to int, truncating toward zero; the product is a square, hence
nonnegative, so the truncation is the floor. Overflow of the 32-bit int is
not modelled. -/
noncomputable def out_r (x : ℝ) : ℤ := ⌊x * x⌋

/-- out_i = cimag(out[i]) * cimag(out[i]) (rtl_map.c:405; rtl_fftx.c:223),
converted to int exactly like out_r. -/
noncomputable def out_i (x : ℝ) : ℤ := ⌊x * x⌋

/-- amp = sqrt(out_r + out_i) (rtl_map.c:406; rtl_fftx.c:224): the int sum is
converted back to a double and passed to sqrt. -/
noncomputable def amp (re im : ℝ) : ℝ := Real.sqrt ((out_r re + out_i im : ℤ) : ℝ)

/-- A double value as emitted by the per-bin value computation: either a
finite value or the IEEE negative infinity that C log10 returns at 0. -/
inductive EmitVal : Type where
  | fin : ℝ → EmitVal
  | neginf : EmitVal

/-- Whether an emitted value is finite. -/
def EmitVal.isFinite : EmitVal → Bool
  | .fin _ => true
  | .neginf => false

/-- Multiplication of an emitted value by a positive constant, as in
10 * log10(amp) (rtl_map.c:408): 10 times negative infinity stays negative
infinity. -/
def EmitVal.scale (c : ℝ) : EmitVal → EmitVal
  | .fin x => .fin (c * x)
  | .neginf => .neginf

/-- The C library function log10 on the nonnegative arguments this program
feeds it: log10(0) is the IEEE negative infinity, and log10(x) is the base
10 logarithm for x > 0. -/
noncomputable def log10c (x : ℝ) : EmitVal :=
  if x = 0 then .neginf else .fin (Real.logb 10 x)

/-- db = _mag_graph ? amp : 10 * log10(amp) (rtl_map.c:407-410;
rtl_fftx.c:225-228). -/
noncomputable def db_value (mag_graph : Bool) (a : ℝ) : EmitVal :=
  if mag_graph then .fin a else (log10c a).scale 10

/-- The size-N forward discrete Fourier transform computed by fftw_execute on
the plan fftw_plan_dft_1d(sample_c, in, out, FFTW_FORWARD, ...)
(rtl_map.c:363 and rtl_map.c:390; rtl_fftx.c:202 and rtl_fftx.c:212). -/
noncomputable def dft (N : ℕ) (inp : ℕ → ℂ) (k : ℕ) : ℂ :=
  ∑ j in Finset.range N,
    inp j * Complex.exp (-(2 * (Real.pi : ℂ)) * Complex.I * ((j * k : ℕ) : ℂ) / (N : ℂ))

/-- The fftw input array actually handed to fftw_execute: slots written by
the conversion loop come from fft_in, unwritten slots hold whatever the
fftw_malloc memory (mem) contained (rtl_map.c:348,381-390). -/
noncomputable def fft_in_exec (off : ℝ) (buf : ℕ → ℝ) (sample_c : ℕ) (mem : ℕ → ℂ)
    (j : ℕ) : ℂ :=
  match fft_in off buf sample_c j with
  | some p => ⟨p.1, p.2⟩
  | none => mem j

/-- The sequence of per-bin values emitted for one batch by the output loop
of create_fft (rtl_map.c:397-427), as a function of the batch bytes and of
the uninitialized fftw_malloc contents mem. -/
noncomputable def create_fft_bins (mag_graph : Bool) (off : ℝ) (sample_c : ℕ) (buf : ℕ → ℝ)
    (mem : ℕ → ℂ) : List EmitVal :=
  (List.range sample_c).map (fun i =>
    db_value mag_graph (amp (dft sample_c (fft_in_exec off buf sample_c mem) i).re
      (dft sample_c (fft_in_exec off buf sample_c mem) i).im))

/-- sample_bin after one batch: sample_bin[i].id = i and sample_bin[i].val =
db (rtl_map.c:425-426; rtl_fftx.c:233-234). The value type is kept
abstract. -/
def sample_bins {α : Type} (sample_c : ℕ) (dbv : ℕ → α) : List (ℕ × α) :=
  (List.range sample_c).map (fun i => (i, dbv i))

/-- The file sink lines written for one batch, one pair (index column, value
column) per line: fprintf(file, "%d\t%f\n", i+1, db) (rtl_map.c:411-412;
rtl_fftx.c:229-230). The printed index column is i + 1. -/
def file_lines {α : Type} (sample_c : ℕ) (dbv : ℕ → α) : List (ℕ × α) :=
  (List.range sample_c).map (fun i => (i + 1, dbv i))

/-- A printf conversion specifier as it appears in the format strings of
create_fft: d stands for the integer conversion, f for the double one. -/
inductive ConvSpec : Type where
  | intConv : ConvSpec
  | floatConv : ConvSpec
deriving DecidableEq

/-- A C variadic argument: an int or a double (double modelled by α). -/
inductive CArg (α : Type) : Type where
  | cint : ℤ → CArg α
  | cfloat : α → CArg α
deriving DecidableEq

/-- Whether a conversion specifier is matched by the argument actually passed
for it; passing a double for a d conversion (or an int for an f one) is
undefined behavior in C. -/
def conv_matches {α : Type} : ConvSpec → CArg α → Bool
  | .intConv, .cint _ => true
  | .floatConv, .cfloat _ => true
  | _, _ => false

/-- One write to the gnuplot pipe. A dataLine records the two conversion
specifiers of the format string and the two arguments passed, in order. -/
inductive PlotCmd (α : Type) : Type where
  | directive : PlotCmd α
  | dataLine : ConvSpec → ConvSpec → CArg α → CArg α → PlotCmd α
  | endData : PlotCmd α
  | flushPipe : PlotCmd α
deriving DecidableEq

/-- The writes create_fft performs on the gnuplot pipe for one batch
(rtl_map.c:395-435; rtl_fftx.c:219-240): the plot directive (rtl_map.c:396),
then for each i the call gnuplot_exec with format d-TAB-f and arguments
(db, i+1) (rtl_map.c:414), then the end-of-data token e (rtl_map.c:433), then
fflush(gnuplotPipe) (rtl_map.c:434). -/
def plot_cmds {α : Type} (sample_c : ℕ) (dbv : ℕ → α) : List (PlotCmd α) :=
  PlotCmd.directive ::
    ((List.range sample_c).map (fun i =>
      PlotCmd.dataLine ConvSpec.intConv ConvSpec.floatConv
        (CArg.cfloat (dbv i)) (CArg.cint (i + 1))))
    ++ [PlotCmd.endData, PlotCmd.flushPipe]

/-- An observable event of the acquisition loop: one Spectrum Transform
invocation (a create_fft call) or the shutdown call (do_exit). -/
inductive AcqEvent : Type where
  | transform : AcqEvent
  | shutdown : AcqEvent
deriving DecidableEq

/-- The event sequence produced by async_read_callback (rtl_map.c:456-464)
starting from a given read_count: each callback runs create_fft, which ends
with read_count++ (rtl_map.c:443); then, if (_cont_read && read_count <
_num_read), it re-issues a read request (another callback), else it calls
do_exit. read_count starts at 0 (rtl_map.c:51); negative -n values behave
exactly like 0, so num_read is modelled as a natural number. -/
def async_read_loop (cont_read : Bool) (num_read read_count : ℕ) : List AcqEvent :=
  if h : cont_read = true ∧ read_count + 1 < num_read then
    AcqEvent.transform :: async_read_loop cont_read num_read (read_count + 1)
  else
    [AcqEvent.transform, AcqEvent.shutdown]
termination_by num_read - read_count
decreasing_by exact Nat.sub_succ_lt_self num_read read_count (Nat.lt_of_succ_lt h.2)

/-- Whether do_exit closes the file sink: if(_filename != NULL &&
strcmp(_filename, "-")) fclose(file) (rtl_map.c:136-137; rtl_fftx.c:82-83).
The command line file name is modelled as an optional string. -/
def do_exit_closes_file (filename : Option String) : Bool :=
  match filename with
  | none => false
  | some s => s != "-"

/-- The process exit status of do_exit: exit(0) (rtl_map.c:138;
rtl_fftx.c:84), on every shutdown path (signal handler and end of the
acquisition loop both call do_exit). -/
def do_exit_status : ℕ := 0

/-- Whether open_file opened a file sink: it does exactly when a file name
was given (rtl_map.c:304-318); on open failure the process exits earlier,
so at shutdown time the sink is open whenever a file name exists. -/
def file_sink_open (filename : Option String) : Bool := filename.isSome

/-- Whether the file sink is the standard output alias, selected by the file
name "-" (rtl_map.c:307-308). -/
def stdout_alias (filename : Option String) : Bool :=
  match filename with
  | none => false
  | some s => s == "-"

/-- The gain-overwrite loop of configure_rtlsdr (rtl_map.c:263-271): for each
supported gain value, if (gains[i] > 10 && gains[i] < 30) then _gain =
gains[i]. -/
def tuner_gain_update (g : ℤ) (gains : List ℤ) : ℤ :=
  gains.foldl (fun acc x => if 10 < x ∧ x < 30 then x else acc) g

/-- The gain finally passed to rtlsdr_set_tuner_gain (rtl_map.c:255-275):
none in auto-gain mode (_gain = 0, rtl_map.c:255-257), otherwise the result
of running the overwrite loop on the configured gain (rtl_map.c:274). -/
def applied_tuner_gain (g : ℤ) (gains : List ℤ) : Option ℤ :=
  if g = 0 then none else some (tuner_gain_update g gains)

/-! Helper lemmas shared by several claims. -/

/-- Closed form of the de-interleaving foldl: after m iterations the even
slots below 2*m are written and every other slot keeps its previous
contents. -/
theorem fft_in_fold_aux {α : Type} [Sub α] (off : α) (buf : ℕ → α) (m : ℕ)
    (mem0 : ℕ → Option (α × α)) (j : ℕ) :
    (List.range m).foldl
      (fun mem n => fun j =>
        if j = 2 * n then some (buf n - off, buf (n + 1) - off) else mem j)
      mem0 j
    = if j < 2 * m ∧ j % 2 = 0 then some (buf (j / 2) - off, buf (j / 2 + 1) - off)
      else mem0 j := by
  induction m generalizing mem0 with
  | zero => simp
  | succ k ih =>
    rw [List.range_succ, List.foldl_append, List.foldl_cons, List.foldl_nil]
    rw [ih]
    by_cases h1 : j = 2 * k
    · rw [if_pos h1, if_pos (⟨by omega, by omega⟩ : j < 2 * (k + 1) ∧ j % 2 = 0)]
      have hj : j / 2 = k := by omega
      rw [hj]
    · rw [if_neg h1]
      by_cases h2 : j < 2 * k ∧ j % 2 = 0
      · rw [if_pos h2, if_pos (⟨by omega, h2.2⟩ : j < 2 * (k + 1) ∧ j % 2 = 0)]
      · rw [if_neg h2, if_neg (fun hc => h2 ⟨by omega, hc.2⟩)]

/-- Pointwise description of the fftw input array: the conversion loop leaves
every odd slot unwritten and fills even slot j from the two consecutive
batch bytes j/2 and j/2 + 1. -/
theorem fft_in_apply {α : Type} [Sub α] (off : α) (buf : ℕ → α) (N j : ℕ) :
    fft_in off buf N j =
      if j < N ∧ j % 2 = 0 then some (buf (j / 2) - off, buf (j / 2 + 1) - off)
      else none := by
  unfold fft_in
  rw [fft_in_fold_aux]
  by_cases h2 : j % 2 = 0
  · by_cases h3 : j < N
    · rw [if_pos (⟨by omega, h2⟩ : j < 2 * ((N + 1) / 2) ∧ j % 2 = 0), if_pos ⟨h3, h2⟩]
    · rw [if_neg (fun hc => h3 (by omega)), if_neg (fun hc => h3 hc.1)]
  · rw [if_neg (fun hc => h2 hc.2), if_neg (fun hc => h2 hc.2)]

/-- C1: the claim states that FFT input slot i equals
(batch[2i] - offset) + j (batch[2i+1] - offset) for every i in [0,N), with
all N slots defined by the batch. On the spec's own N = 4 example batch with
offset 127, the code instead leaves slots 1 and 3 uninitialized and fills
slot 2 from the overlapping byte pair (batch[1], batch[2]); the values the
claim demands are exactly those of spec_fft_in, which disagrees with the
code on slots 1, 2 and 3. -/
theorem fft_in_overlap_bug_values :
    fft_in (127 : ℤ) exBatch 4 0 = some (0, 0) ∧
    fft_in (127 : ℤ) exBatch 4 1 = none ∧
    fft_in (127 : ℤ) exBatch 4 2 = some (0, 10) ∧
    fft_in (127 : ℤ) exBatch 4 3 = none ∧
    spec_fft_in (127 : ℤ) exBatch 4 1 = some (10, -10) ∧
    spec_fft_in (127 : ℤ) exBatch 4 2 = some (-20, 20) ∧
    fft_in (127 : ℤ) exBatch 4 2 ≠ spec_fft_in (127 : ℤ) exBatch 4 2 := by
  decide

/-- C2 counterexample: the line written to the file sink for the first bin
(bin index 0, as recorded in sample_bin) carries index column 1, not the
bin index 0, so the claim that each bin is written as its own index
followed by its value fails already on the first line of any batch. -/
theorem file_line_first_index_ne_zero :
    (file_lines 4 (fun _ => (0 : ℤ)))[0]? = some (1, 0) ∧
    (sample_bins 4 (fun _ => (0 : ℤ)))[0]? = some (0, 0) ∧
    (1 : ℕ) ≠ 0 := by
  decide

/-- C2 amended: per batch the transform produces exactly N bins whose ids
cover [0,N) exactly once in ascending order, and the file sink writes one
line per bin with the index column first, but the index column holds the
bin index plus one (the file indices cover [1,N]). -/
theorem bins_and_file_lines_shape {α : Type} (N : ℕ) (dbv : ℕ → α) :
    (sample_bins N dbv).map Prod.fst = List.range N ∧
    (file_lines N dbv).length = N ∧
    ∀ i : ℕ, (file_lines N dbv)[i]? = if i < N then some (i + 1, dbv i) else none := by
  refine ⟨?_, ?_, ?_⟩
  · rw [sample_bins, List.map_map]
    exact List.map_id _
  · simp [file_lines]
  · intro i
    by_cases h : i < N
    · rw [if_pos h]
      simp [file_lines, List.getElem?_map, List.getElem?_range, h]
    · rw [if_neg h]
      refine List.getElem?_eq_none ?_
      simp [file_lines]
      omega

/-- C7 counterexample: every read request passes n_read * n_read = 262144 as
the buffer length to rtlsdr_read_async, which is not 2 * n_read = 1024, so
the claim that each batch request asks for exactly 2N bytes fails. -/
theorem buf_len_not_two_n :
    read_async_buf_len = 262144 ∧ read_async_buf_len ≠ 2 * n_read := by
  decide

/-- C7 amended: each batch request asks for n_read * n_read bytes rather than
2N; the transform then reads only bytes 0 .. n_read / 2 of the delivered
batch, so the conversion result is unchanged by any byte beyond index
n_read / 2 = 256 (in particular the oversized request always contains every
byte the transform consumes). -/
theorem buf_len_and_bytes_consumed (off : ℚ) (buf buf2 : ℕ → ℚ)
    (h : ∀ j : ℕ, j ≤ n_read / 2 → buf j = buf2 j) :
    read_async_buf_len = n_read * n_read ∧
    fft_in off buf n_read = fft_in off buf2 n_read := by
  refine ⟨rfl, ?_⟩
  funext j
  rw [fft_in_apply, fft_in_apply]
  have hn : n_read = 512 := rfl
  by_cases hc : j < n_read ∧ j % 2 = 0
  · rw [if_pos hc, if_pos hc]
    rw [h (j / 2) (by omega), h (j / 2 + 1) (by omega)]
  · rw [if_neg hc, if_neg hc]

/-- C7 witness: the amended theorem applied to two identical all-zero
batches. -/
theorem buf_len_and_bytes_consumed_witness :
    (∀ j : ℕ, j ≤ n_read / 2 → (0 : ℚ) = 0) ∧
    (read_async_buf_len = n_read * n_read ∧
      fft_in (127 : ℚ) (fun _ => 0) n_read = fft_in (127 : ℚ) (fun _ => 0) n_read) :=
  ⟨fun _ _ => rfl, buf_len_and_bytes_consumed 127 (fun _ => 0) (fun _ => 0) (fun _ _ => rfl)⟩

/-- C3 counterexample: in level-display mode a bin of magnitude 0 is emitted
as 10 * log10(0), the IEEE negative infinity, which is not finite; the code
has no clamp or skip policy, so the claim that a finite value is always
emitted fails at magnitude 0. -/
theorem level_of_zero_magnitude_not_finite :
    (db_value false 0).isFinite = false := by
  simp [db_value, log10c, EmitVal.scale, EmitVal.isFinite]

/-- C3 amended: the emitted value is non-finite exactly when level-display
mode is active and the magnitude is 0, in which case the code emits the
negative infinity produced by log10(0) as-is; in every other case the
emitted value is finite. -/
theorem db_value_finiteness (mag_graph : Bool) (a : ℝ) :
    (db_value mag_graph a).isFinite = false ↔ (mag_graph = false ∧ a = 0) := by
  cases mag_graph with
  | false =>
    by_cases ha : a = 0
    · simp [db_value, log10c, EmitVal.scale, EmitVal.isFinite, ha]
    · simp [db_value, log10c, EmitVal.scale, EmitVal.isFinite, ha]
  | true =>
    simp [db_value, EmitVal.isFinite]

/-- C3 witness: the amended theorem applied at level mode and magnitude 0. -/
theorem db_value_finiteness_witness :
    (false = false ∧ (0 : ℝ) = 0) ∧ (db_value false 0).isFinite = false :=
  ⟨⟨rfl, rfl⟩, (db_value_finiteness false 0).mpr ⟨rfl, rfl⟩⟩

/-- C4 counterexample: the code squares each part into a C int, so for the
transform output re = 1/2, im = 0 the computed magnitude is
sqrt(trunc(1/4) + trunc(0)) = 0, while the claimed magnitude
sqrt(re^2 + im^2) is 1/2: the claimed equality fails. -/
theorem amp_truncation_counterexample :
    amp (1 / 2 : ℝ) 0 ≠ Real.sqrt ((1 / 2 : ℝ) * (1 / 2) + 0 * 0) := by
  have h1 : amp (1 / 2 : ℝ) 0 = 0 := by
    unfold amp out_r out_i
    have hf : (⌊(1 / 2 : ℝ) * (1 / 2)⌋ : ℤ) = 0 := by
      rw [Int.floor_eq_zero_iff]
      constructor <;> norm_num
    have hz : (⌊(0 : ℝ) * 0⌋ : ℤ) = 0 := by
      norm_num
    rw [hf, hz]
    norm_num
  have h2 : Real.sqrt ((1 / 2 : ℝ) * (1 / 2) + 0 * 0) = 1 / 2 := by
    have he : ((1 / 2 : ℝ) * (1 / 2) + 0 * 0) = (1 / 2 : ℝ) ^ 2 := by ring
    rw [he, Real.sqrt_sq (by norm_num : (0 : ℝ) ≤ 1 / 2)]
  rw [h1, h2]
  norm_num

/-- C4 amended: the computed magnitude is sqrt of the sum of the two squares
each truncated to a C int, so it equals the claimed sqrt(re^2 + im^2)
exactly on integer-valued transform outputs; the emitted value is the
magnitude when magnitude-display mode is on, and otherwise
10 * log10(magnitude), with the negative infinity of log10(0) at magnitude
zero. -/
theorem amp_int_outputs_and_db (a b : ℤ) :
    amp (a : ℝ) (b : ℝ) = Real.sqrt ((a : ℝ) ^ 2 + (b : ℝ) ^ 2) ∧
    db_value true (amp (a : ℝ) (b : ℝ)) = EmitVal.fin (amp (a : ℝ) (b : ℝ)) ∧
    db_value false (amp (a : ℝ) (b : ℝ)) =
      (if amp (a : ℝ) (b : ℝ) = 0 then EmitVal.neginf
       else EmitVal.fin (10 * Real.logb 10 (amp (a : ℝ) (b : ℝ)))) := by
  refine ⟨?_, ?_, ?_⟩
  · unfold amp out_r out_i
    have ha : ((a : ℝ) * (a : ℝ)) = ((a * a : ℤ) : ℝ) := by push_cast; ring
    have hb : ((b : ℝ) * (b : ℝ)) = ((b * b : ℤ) : ℝ) := by push_cast; ring
    rw [ha, hb, Int.floor_intCast, Int.floor_intCast]
    push_cast
    ring_nf
  · simp [db_value]
  · by_cases hz : amp (a : ℝ) (b : ℝ) = 0
    · simp [db_value, log10c, EmitVal.scale, hz]
    · simp [db_value, log10c, EmitVal.scale, hz]

/-- The k = 0 output of the size-2 transform is the sum of the two input
slots. -/
theorem dft_two_zero (inp : ℕ → ℂ) : dft 2 inp 0 = inp 0 + inp 1 := by
  unfold dft
  rw [Finset.sum_range_succ, Finset.sum_range_succ, Finset.sum_range_zero]
  simp

/-- FFT input slot 0 for the all-127 batch at offset 127 is 0, whatever the
malloc contents are. -/
theorem fft_in_exec_slot0 (mem : ℕ → ℂ) :
    fft_in_exec 127 (fun _ => (127 : ℝ)) 2 mem 0 = 0 := by
  unfold fft_in_exec
  rw [fft_in_apply]
  rw [if_pos (⟨by norm_num, rfl⟩ : (0 < 2 ∧ 0 % 2 = 0))]
  simp [Complex.ext_iff]

/-- FFT input slot 1 is never written by the conversion loop, so it is the
malloc contents. -/
theorem fft_in_exec_slot1 (mem : ℕ → ℂ) :
    fft_in_exec 127 (fun _ => (127 : ℝ)) 2 mem 1 = mem 1 := by
  unfold fft_in_exec
  rw [fft_in_apply]
  rw [if_neg (by omega : ¬(1 < 2 ∧ 1 % 2 = 0))]

/-- The code magnitude of the zero transform output. -/
theorem amp_zero_zero : amp 0 0 = 0 := by
  unfold amp out_r out_i
  norm_num

/-- The code magnitude of the transform output 100. -/
theorem amp_hundred_zero : amp 100 0 = 100 := by
  unfold amp out_r out_i
  have h1 : ((100 : ℝ) * 100) = ((10000 : ℤ) : ℝ) := by norm_num
  have h2 : ((0 : ℝ) * 0) = ((0 : ℤ) : ℝ) := by norm_num
  rw [h1, h2, Int.floor_intCast, Int.floor_intCast]
  have h3 : (((10000 + 0 : ℤ)) : ℝ) = (100 : ℝ) ^ 2 := by norm_num
  rw [h3, Real.sqrt_sq (by norm_num : (0 : ℝ) ≤ 100)]

/-- C5: two runs of create_fft on the identical all-127 batch under the
identical configuration (magnitude mode, offset 127, N = 2) but with
different uninitialized fftw_malloc contents emit different bin sequences:
bin 0 is 0 in the run whose unwritten slot holds 0 and 100 in the run whose
unwritten slot holds 100. The emitted sequence is therefore not a function
of the batch and configuration alone, refuting determinism as claimed. -/
theorem create_fft_bins_depend_on_uninit_mem :
    create_fft_bins true 127 2 (fun _ => 127) (fun _ => 0) ≠
      create_fft_bins true 127 2 (fun _ => 127) (fun _ => (100 : ℂ)) := by
  intro h
  unfold create_fft_bins at h
  rw [show List.range 2 = [0, 1] from rfl] at h
  simp only [List.map_cons, List.map_nil] at h
  rw [dft_two_zero, dft_two_zero, fft_in_exec_slot0, fft_in_exec_slot1,
    fft_in_exec_slot0, fft_in_exec_slot1] at h
  have h0 := (List.cons.injEq _ _ _ _).mp h |>.1
  rw [zero_add, zero_add] at h0
  simp only [Complex.zero_re, Complex.zero_im, Complex.re_ofNat, Complex.im_ofNat] at h0
  rw [amp_zero_zero, amp_hundred_zero] at h0
  simp only [db_value, if_pos rfl] at h0
  have : (0 : ℝ) = 100 := by
    injection h0
  norm_num at this

/-- Closed form of the acquisition loop in bounded continuous mode, for any
starting read_count below the bound. -/
theorem async_read_loop_closed (num_read : ℕ) :
    ∀ fuel read_count : ℕ, read_count < num_read → num_read - read_count = fuel →
      async_read_loop true num_read read_count =
        List.replicate (num_read - read_count) AcqEvent.transform ++ [AcqEvent.shutdown] := by
  intro fuel
  induction fuel with
  | zero =>
    intro rc h1 h2
    omega
  | succ n ih =>
    intro rc h1 h2
    rw [async_read_loop]
    by_cases hc : rc + 1 < num_read
    · rw [dif_pos (⟨rfl, hc⟩ : true = true ∧ rc + 1 < num_read)]
      rw [ih (rc + 1) hc (by omega)]
      have hs : num_read - rc = (num_read - (rc + 1)) + 1 := by omega
      rw [hs, List.replicate_succ, List.cons_append]
    · rw [dif_neg (fun hh : true = true ∧ rc + 1 < num_read => hc hh.2)]
      have hs : num_read - rc = 1 := by omega
      rw [hs]
      rfl

/-- C6 counterexample: with continuous mode on and a configured maximum batch
count of 0, the loop still performs one transform invocation before shutting
down (the first read is issued unconditionally and the bound is only checked
after a transform), so the claimed count of exactly K = 0 invocations fails:
the forbidden (K+1)-th invocation occurs. -/
theorem acq_loop_zero_bound_still_transforms :
    async_read_loop true 0 0 = [AcqEvent.transform, AcqEvent.shutdown] ∧
    async_read_loop true 0 0 ≠
      List.replicate 0 AcqEvent.transform ++ [AcqEvent.shutdown] := by
  have h : async_read_loop true 0 0 = [AcqEvent.transform, AcqEvent.shutdown] := by
    rw [async_read_loop]
    rw [dif_neg (fun hh : true = true ∧ 0 + 1 < 0 => by omega)]
  refine ⟨h, ?_⟩
  rw [h]
  decide

/-- C6 amended: in continuous mode with a configured maximum batch count
K at least 1, the acquisition loop performs exactly K transform invocations
and then invokes shutdown: the event trace is K transforms followed by one
shutdown, so a (K+1)-th transform never occurs; for K = 0 one invocation
still occurs. -/
theorem acq_loop_bounded_count (K : ℕ) (h : 1 ≤ K) :
    async_read_loop true K 0 =
      List.replicate K AcqEvent.transform ++ [AcqEvent.shutdown] := by
  have hc := async_read_loop_closed K K 0 (by omega) (by omega)
  simpa using hc

/-- C6 witness: the amended theorem at the bound K = 3 used by the spec
scenario. -/
theorem acq_loop_bounded_count_witness :
    1 ≤ 3 ∧ async_read_loop true 3 0 =
      List.replicate 3 AcqEvent.transform ++ [AcqEvent.shutdown] :=
  ⟨by decide, acq_loop_bounded_count 3 (by decide)⟩

/-- C8: the gnuplot channel does receive, per batch, one plot directive, then
one data emission per bin with the value argument first and the index
argument second, then the end-of-data token, then a flush; but every data
emission pairs the format d-TAB-f (kept from the file-sink line) with a
double first argument and an int second argument, so both conversions are
mismatched and the printed data line is undefined behavior in C rather than
the claimed value-TAB-index text. Evaluated at N = 2 with bin values 0, 1. -/
theorem plot_line_format_mismatch :
    plot_cmds 2 (fun i => (i : ℤ)) =
      [PlotCmd.directive,
       PlotCmd.dataLine ConvSpec.intConv ConvSpec.floatConv (CArg.cfloat 0) (CArg.cint 1),
       PlotCmd.dataLine ConvSpec.intConv ConvSpec.floatConv (CArg.cfloat 1) (CArg.cint 2),
       PlotCmd.endData, PlotCmd.flushPipe] ∧
    conv_matches ConvSpec.intConv (CArg.cfloat (0 : ℤ)) = false ∧
    conv_matches ConvSpec.floatConv (CArg.cint 1 : CArg ℤ) = false := by
  decide

/-- C9: do_exit closes the file sink exactly when a file sink was configured
(hence open) and it is not the standard-output alias "-", and the process
exit status of the shutdown sequence is always 0; both shutdown paths (the
signal handler and the end of the acquisition loop) run this same do_exit. -/
theorem do_exit_close_condition_and_status (filename : Option String) :
    do_exit_closes_file filename = (file_sink_open filename && !stdout_alias filename) ∧
    do_exit_status = 0 := by
  refine ⟨?_, rfl⟩
  cases filename with
  | none => rfl
  | some s => simp [do_exit_closes_file, file_sink_open, stdout_alias, bne]

/-- The overwrite loop keeps the last list entry satisfying the range test,
and the initial value when no entry satisfies it. -/
theorem tuner_gain_update_eq_filter (g : ℤ) (gains : List ℤ) :
    tuner_gain_update g gains =
      (gains.filter (fun x => decide (10 < x ∧ x < 30))).getLastD g := by
  induction gains generalizing g with
  | nil => rfl
  | cons a l ih =>
    have h1 : tuner_gain_update g (a :: l) =
        tuner_gain_update (if 10 < a ∧ a < 30 then a else g) l := rfl
    by_cases hc : 10 < a ∧ a < 30
    · rw [h1, if_pos hc, ih a, List.filter_cons, if_pos (decide_eq_true hc),
        List.getLastD_cons]
    · rw [h1, if_neg hc, ih g, List.filter_cons,
        if_neg (fun hd => hc (of_decide_eq_true hd))]

/-- C10: with a nonzero configured gain, the gain actually applied to the
device is the last supported-gain entry lying strictly between 10 and 30
tenths of dB when one exists (so not necessarily the user-supplied value),
and the configured gain itself only when no such entry exists; with gain 0
no manual gain is applied at all. -/
theorem applied_gain_last_in_range (g : ℤ) (gains : List ℤ) (h : g ≠ 0) :
    applied_tuner_gain g gains =
      some ((gains.filter (fun x => decide (10 < x ∧ x < 30))).getLastD g) ∧
    (gains.filter (fun x => decide (10 < x ∧ x < 30)) = [] →
      applied_tuner_gain g gains = some g) := by
  constructor
  · unfold applied_tuner_gain
    rw [if_neg h, tuner_gain_update_eq_filter]
  · intro he
    unfold applied_tuner_gain
    rw [if_neg h, tuner_gain_update_eq_filter, he]
    rfl

/-- C10 witness: gain 14 with supported gains [9, 14, 27, 42]; the filter
keeps [14, 27], so the applied gain is 27, the last in-range entry. -/
theorem applied_gain_last_in_range_witness :
    (14 : ℤ) ≠ 0 ∧
    applied_tuner_gain 14 [9, 14, 27, 42] =
      some (([9, 14, 27, 42].filter (fun x => decide (10 < x ∧ x < 30))).getLastD 14) ∧
    applied_tuner_gain 14 [9, 14, 27, 42] = some 27 :=
  ⟨by decide, (applied_gain_last_in_range 14 [9, 14, 27, 42] (by decide)).1, by decide⟩
